import Mathlib

/-!
Verification development for the SpeakUp BPv7 / TCPCL core.

This file gives a shallow embedding, in Lean 4, of the parts of the
repository that the specification's claims are about:

* `src/bpv7/encoding/crc.py` — CRC-16 X.25 and CRC-32C engines with the
  block-level calculate / replace / verify operations;
* `src/bpv7/encoding/cbor.py` — the deterministic CBOR encoder and the
  streaming decoder;
* `src/bpv7/core/eid.py`, `src/bpv7/core/time.py`,
  `src/bpv7/blocks/primary.py`, `src/bpv7/blocks/payload.py`,
  `src/bpv7/core/bundle.py` — the BPv7 data model and the bundle
  encode / decode pipeline;
* `src/bpv7/agent/tcpcl.py` — the TCPCL send and segment-handling paths.

Bytes are modelled as `Nat` (values below 256), byte strings as
`List Nat`, Python integers as `Int` or `Nat` where the sign is fixed,
and fallible Python code as `Except PyErr`.
-/

/-- Errors raised by the embedded Python code.  `valueError` models
`raise ValueError(...)` (the structured decode errors), `indexError`
models an uncaught out-of-range sequence subscript, `keyError` models an
uncaught dictionary subscript miss. -/
inductive PyErr where
  | valueError (msg : String)
  | indexError
  | keyError
  deriving Repr, DecidableEq

instance {ε α : Type} [DecidableEq ε] [DecidableEq α] :
    DecidableEq (Except ε α) := fun
  | .error e, .error f =>
    if h : e = f then isTrue (by rw [h])
    else isFalse (by intro c; injection c; exact h (by assumption))
  | .error _, .ok _ => isFalse (by intro h; cases h)
  | .ok _, .error _ => isFalse (by intro h; cases h)
  | .ok a, .ok b =>
    if h : a = b then isTrue (by rw [h])
    else isFalse (by intro c; injection c; exact h (by assumption))

/-! ## CRC engine (`src/bpv7/encoding/crc.py`) -/

/-- One shift-xor round of the reflected CRC bit loop:
`crc = (crc >> 1) ^ poly` if the low bit is set, else `crc >> 1`. -/
def crcRound (poly x : Nat) : Nat :=
  if x % 2 = 1 then (x / 2) ^^^ poly else x / 2

/-- `n` rounds of `crcRound` (the inner `for _ in range(8)` loop). -/
def crcRounds (poly x : Nat) : Nat → Nat
  | 0 => x
  | n + 1 => crcRounds poly (crcRound poly x) n

/-- Entry `i` of the CRC-16 X.25 lookup table (`_init_crc16_table`). -/
def crc16Table (i : Nat) : Nat := crcRounds 0x8408 i 8

/-- One step of the table-driven CRC-16 loop:
`crc = table[(crc ^ byte) & 0xFF] ^ (crc >> 8)`. -/
def crc16Update (crc b : Nat) : Nat :=
  crc16Table ((crc ^^^ b) % 256) ^^^ (crc / 256)

/-- `crc16_x25(data)`: reflected CRC-16 X.25 with init `0xFFFF` and
xorout `0xFFFF`. -/
def crc16_x25 (data : List Nat) : Nat :=
  (data.foldl crc16Update 0xFFFF) ^^^ 0xFFFF

/-- Entry `i` of the CRC-32C lookup table (`_init_crc32c_table`). -/
def crc32cTable (i : Nat) : Nat := crcRounds 0x82F63B78 i 8

/-- One step of the table-driven CRC-32C loop. -/
def crc32cUpdate (crc b : Nat) : Nat :=
  crc32cTable ((crc ^^^ b) % 256) ^^^ (crc / 256)

/-- `crc32c(data)`: reflected CRC-32C with init `0xFFFFFFFF` and xorout
`0xFFFFFFFF`. -/
def crc32c (data : List Nat) : Nat :=
  (data.foldl crc32cUpdate 0xFFFFFFFF) ^^^ 0xFFFFFFFF

/-- `n.to_bytes(len, 'big')`: fixed-width big-endian bytes. -/
def toBytesBE : Nat → Nat → List Nat
  | 0, _ => []
  | k + 1, n => toBytesBE k (n / 256) ++ [n % 256]

/-- `calculate_block_crc(encoded_block, crc_type)`: the CRC of the block
in network byte order (empty for CRC type 0). -/
def calculate_block_crc (encodedBlock : List Nat) (crcType : Nat) :
    Except PyErr (List Nat) :=
  if crcType = 0 then .ok []
  else if crcType = 1 then .ok (toBytesBE 2 (crc16_x25 encodedBlock))
  else if crcType = 2 then .ok (toBytesBE 4 (crc32c encodedBlock))
  else .error (.valueError "Unknown CRC type")

/-- `verify_block_crc(encoded_block, crc_type)`: computes the CRC over
the complete block and compares it against the expected residue. -/
def verify_block_crc (encodedBlock : List Nat) (crcType : Nat) :
    Except PyErr Bool :=
  if crcType = 0 then .ok true
  else if crcType = 1 then
    if encodedBlock.length < 2 then .ok false
    else .ok (decide (crc16_x25 encodedBlock = 0x0F47))
  else if crcType = 2 then
    if encodedBlock.length < 4 then .ok false
    else .ok (decide (crc32c encodedBlock = 0x48674BC7))
  else .error (.valueError "Unknown CRC type")

/-- `replace_crc_in_block(encoded_block, crc_type)`: drops the trailing
placeholder bytes and appends the CRC computed over the block that still
contains the zero placeholder. -/
def replace_crc_in_block (encodedBlock : List Nat) (crcType : Nat) :
    Except PyErr (List Nat) :=
  if crcType = 0 then .ok encodedBlock
  else if crcType = 1 then
    (calculate_block_crc encodedBlock 1).map fun crcBytes =>
      encodedBlock.take (encodedBlock.length - 2) ++ crcBytes
  else if crcType = 2 then
    (calculate_block_crc encodedBlock 2).map fun crcBytes =>
      encodedBlock.take (encodedBlock.length - 4) ++ crcBytes
  else .error (.valueError "Unknown CRC type")

/-! ## CBOR codec (`src/bpv7/encoding/cbor.py`)

Values are the Python values the codec supports: `int` (with `bool`
checked first, so Lean models them as separate constructors), `bytes`,
`str` (carried as its UTF-8 byte sequence: `str.encode('utf-8')` /
`bytes.decode('utf-8')` form a bijection on valid UTF-8, so a text value
is represented by its encoding; UTF-8 validation of foreign input is not
modelled), `list`, `dict` (carried as its entry list; a `dict` is an
unordered map, represented canonically), `bool`, `None`. -/
inductive CBORValue where
  | int (n : Int)
  | bytes (bs : List Nat)
  | text (bs : List Nat)
  | arr (items : List CBORValue)
  | map (entries : List (CBORValue × CBORValue))
  | bool (b : Bool)
  | null

/-- `_encode_head(major_type, argument)`: initial byte
`(major_type << 5) | additional_info` followed by 0/1/2/4/8 big-endian
argument bytes, choosing the shortest form.  (`struct.pack` would raise
for an argument of 2^64 or more, so the head is only meaningful for
arguments below 2^64; all call sites in the claims satisfy this.) -/
def encodeHead (mt arg : Nat) : List Nat :=
  if arg < 24 then [(mt <<< 5) ||| arg]
  else if arg ≤ 0xFF then [(mt <<< 5) ||| 24, arg]
  else if arg ≤ 0xFFFF then ((mt <<< 5) ||| 25) :: toBytesBE 2 arg
  else if arg ≤ 0xFFFFFFFF then ((mt <<< 5) ||| 26) :: toBytesBE 4 arg
  else ((mt <<< 5) ||| 27) :: toBytesBE 8 arg

/-- Python `bytes` comparison: lexicographic, a strict prefix is
smaller. -/
def lexLt : List Nat → List Nat → Bool
  | _, [] => false
  | [], _ :: _ => true
  | a :: as, b :: bs => if a < b then true else if b < a then false else lexLt as bs

/-- Stable insertion of an (encoded key, encoded value) pair: the new
pair goes after existing pairs with keys not greater than its own. -/
def insertPair (x : List Nat × List Nat) :
    List (List Nat × List Nat) → List (List Nat × List Nat)
  | [] => [x]
  | y :: ys => if lexLt x.1 y.1 then x :: y :: ys else y :: insertPair x ys

/-- Stable sort of encoded map entries by encoded key, modelling
`sorted(value.keys(), key=lambda k: CBOREncoder().encode(k).get_bytes())`
(Python's sort is stable; pairing each key with its value and sorting
the pairs by encoded key is the same as sorting the keys). -/
def sortPairs : List (List Nat × List Nat) → List (List Nat × List Nat)
  | [] => []
  | x :: xs => insertPair x (sortPairs xs)

/-- Concatenate encoded key/value pairs in order. -/
def joinPairs : List (List Nat × List Nat) → List Nat
  | [] => []
  | (k, v) :: rest => k ++ v ++ joinPairs rest

mutual

/-- `CBOREncoder.encode(value)` followed by `get_bytes()`: dispatch on
the Python type (None, bool before int, int, bytes, str, list, dict with
keys sorted by their encoded form). -/
def encodeVal : CBORValue → List Nat
  | .null => [(7 <<< 5) ||| 22]
  | .bool b => if b then [(7 <<< 5) ||| 21] else [(7 <<< 5) ||| 20]
  | .int n => if 0 ≤ n then encodeHead 0 n.toNat else encodeHead 1 (-1 - n).toNat
  | .bytes bs => encodeHead 2 bs.length ++ bs
  | .text bs => encodeHead 3 bs.length ++ bs
  | .arr items => encodeHead 4 items.length ++ encodeItems items
  | .map entries =>
      encodeHead 5 entries.length ++ joinPairs (sortPairs (encodeEntries entries))

/-- Encode the elements of a list in order. -/
def encodeItems : List CBORValue → List Nat
  | [] => []
  | v :: vs => encodeVal v ++ encodeItems vs

/-- Encode every map entry to its (encoded key, encoded value) pair, in
dict order. -/
def encodeEntries : List (CBORValue × CBORValue) → List (List Nat × List Nat)
  | [] => []
  | (k, v) :: rest => (encodeVal k, encodeVal v) :: encodeEntries rest

end

/-- `cbor_encode(value)`. -/
def cbor_encode (v : CBORValue) : List Nat := encodeVal v

/-- `struct.unpack` of big-endian bytes. -/
def fromBytesBE (bs : List Nat) : Nat := bs.foldl (fun a b => a * 256 + b) 0

/-- `CBORDecoder._decode_argument(additional_info)`: the argument, or
`-1` as the indefinite-length sentinel for additional info 31.  Reads
from the remaining input `l`; returns the argument and the rest. -/
def decodeArgument (ai : Nat) (l : List Nat) :
    Except PyErr (Int × {r : List Nat // r.length ≤ l.length}) :=
  if ai < 24 then .ok ((ai : Int), ⟨l, Nat.le_refl _⟩)
  else if ai = 24 then
    match l with
    | [] => .error (.valueError "Unexpected end of CBOR data")
    | b :: rest => .ok ((b : Int), ⟨rest, by simp⟩)
  else if ai = 25 then
    if h : 2 ≤ l.length then
      .ok ((fromBytesBE (l.take 2) : Nat), ⟨l.drop 2, by simp⟩)
    else .error (.valueError "Unexpected end of CBOR data")
  else if ai = 26 then
    if h : 4 ≤ l.length then
      .ok ((fromBytesBE (l.take 4) : Nat), ⟨l.drop 4, by simp⟩)
    else .error (.valueError "Unexpected end of CBOR data")
  else if ai = 27 then
    if h : 8 ≤ l.length then
      .ok ((fromBytesBE (l.take 8) : Nat), ⟨l.drop 8, by simp⟩)
    else .error (.valueError "Unexpected end of CBOR data")
  else if ai = 31 then .ok (-1, ⟨l, Nat.le_refl _⟩)
  else .error (.valueError "Invalid additional info")

mutual

/-- `CBORDecoder.decode()`: one data item from the remaining input,
returning the item and the rest of the input.  The cursor of the Python
class is modelled by the remaining byte list. -/
def decodeVal (l : List Nat) :
    Except PyErr (CBORValue × {r : List Nat // r.length < l.length}) :=
  match l with
  | [] => .error (.valueError "Unexpected end of CBOR data")
  | b :: rest =>
    let mt := b >>> 5
    let ai := b &&& 0x1F
    if mt = 0 then
      match decodeArgument ai rest with
      | .error e => .error e
      | .ok (arg, r) => .ok (.int arg, ⟨r.val, by
          have := r.prop; simp; omega⟩)
    else if mt = 1 then
      match decodeArgument ai rest with
      | .error e => .error e
      | .ok (arg, r) => .ok (.int (-1 - arg), ⟨r.val, by
          have := r.prop; simp; omega⟩)
    else if mt = 2 then
      match decodeArgument ai rest with
      | .error e => .error e
      | .ok (arg, r) =>
        if arg < 0 then .error (.valueError "Indefinite byte strings not supported")
        else if h : arg.toNat ≤ r.val.length then
          .ok (.bytes (r.val.take arg.toNat), ⟨r.val.drop arg.toNat, by
            have := r.prop; simp; omega⟩)
        else .error (.valueError "Unexpected end of CBOR data")
    else if mt = 3 then
      match decodeArgument ai rest with
      | .error e => .error e
      | .ok (arg, r) =>
        if arg < 0 then .error (.valueError "Indefinite text strings not supported")
        else if h : arg.toNat ≤ r.val.length then
          .ok (.text (r.val.take arg.toNat), ⟨r.val.drop arg.toNat, by
            have := r.prop; simp; omega⟩)
        else .error (.valueError "Unexpected end of CBOR data")
    else if mt = 4 then
      match decodeArgument ai rest with
      | .error e => .error e
      | .ok (arg, r) =>
        if arg < 0 then
          match decodeIndefItems r.val with
          | .error e => .error e
          | .ok (items, r') => .ok (.arr items, ⟨r'.val, by
              have h1 := r.prop; have h2 := r'.prop; simp; omega⟩)
        else
          match decodeItems arg.toNat r.val with
          | .error e => .error e
          | .ok (items, r') => .ok (.arr items, ⟨r'.val, by
              have h1 := r.prop; have h2 := r'.prop; simp; omega⟩)
    else if mt = 5 then
      match decodeArgument ai rest with
      | .error e => .error e
      | .ok (arg, r) =>
        if arg < 0 then .error (.valueError "Indefinite maps not supported")
        else
          match decodePairs arg.toNat r.val with
          | .error e => .error e
          | .ok (entries, r') => .ok (.map entries, ⟨r'.val, by
              have h1 := r.prop; have h2 := r'.prop; simp; omega⟩)
    else if mt = 7 then
      if ai = 20 then .ok (.bool false, ⟨rest, by simp⟩)
      else if ai = 21 then .ok (.bool true, ⟨rest, by simp⟩)
      else if ai = 22 then .ok (.null, ⟨rest, by simp⟩)
      else if ai = 31 then .error (.valueError "Unexpected break code")
      else .error (.valueError "Unknown simple value")
    else .error (.valueError "Unknown major type")
  termination_by (l.length, 0)
  decreasing_by
    all_goals simp_wf
    all_goals first
      | exact Prod.Lex.right _ (by omega)
      | (apply Prod.Lex.left
         (try have hA := r.2); (try have hB := r'.2)
         (try simp only [List.length_cons] at hA)
         (try simp only [List.length_cons] at hB)
         (try simp only [List.length_cons])
         omega)

/-- Decode `n` items of a definite-length array
(`[self.decode() for _ in range(length)]`). -/
def decodeItems (n : Nat) (l : List Nat) :
    Except PyErr (List CBORValue × {r : List Nat // r.length ≤ l.length}) :=
  match n with
  | 0 => .ok ([], ⟨l, Nat.le_refl _⟩)
  | n + 1 =>
    match decodeVal l with
    | .error e => .error e
    | .ok (v, r) =>
      match decodeItems n r.val with
      | .error e => .error e
      | .ok (vs, r') => .ok (v :: vs, ⟨r'.val, by
          have h1 := r.prop; have h2 := r'.prop; omega⟩)
  termination_by (l.length, 1)
  decreasing_by
    all_goals simp_wf
    all_goals first
      | exact Prod.Lex.right _ (by omega)
      | (apply Prod.Lex.left
         (try have hA := r.2); (try have hB := r'.2)
         (try simp only [List.length_cons] at hA)
         (try simp only [List.length_cons] at hB)
         (try simp only [List.length_cons])
         omega)

/-- Decode items of an indefinite-length array until the break code.
The Python loop checks `self._data[self._pos] == 0xFF` by direct
subscript — on a truncated input this is an out-of-range access
(`IndexError`), not the structured end-of-data `ValueError`. -/
def decodeIndefItems (l : List Nat) :
    Except PyErr (List CBORValue × {r : List Nat // r.length < l.length}) :=
  match l with
  | [] => .error .indexError
  | b :: rest =>
    if b = 0xFF then .ok ([], ⟨rest, by simp⟩)
    else
      match decodeVal (b :: rest) with
      | .error e => .error e
      | .ok (v, r) =>
        match decodeIndefItems r.val with
        | .error e => .error e
        | .ok (vs, r') => .ok (v :: vs, ⟨r'.val, Nat.lt_trans r'.prop r.prop⟩)
  termination_by (l.length, 1)
  decreasing_by
    all_goals simp_wf
    all_goals first
      | exact Prod.Lex.right _ (by omega)
      | (apply Prod.Lex.left
         (try have hA := r.2); (try have hB := r'.2)
         (try simp only [List.length_cons] at hA)
         (try simp only [List.length_cons] at hB)
         (try simp only [List.length_cons])
         omega)

/-- Decode `n` key/value pairs of a definite-length map, in input
order.  (The Python decoder stores them into a `dict`, where a repeated
key would overwrite its predecessor; every map in this development has
distinct keys, so the entry list carries the same information.) -/
def decodePairs (n : Nat) (l : List Nat) :
    Except PyErr (List (CBORValue × CBORValue) × {r : List Nat // r.length ≤ l.length}) :=
  match n with
  | 0 => .ok ([], ⟨l, Nat.le_refl _⟩)
  | n + 1 =>
    match decodeVal l with
    | .error e => .error e
    | .ok (k, r) =>
      match decodeVal r.val with
      | .error e => .error e
      | .ok (v, r') =>
        match decodePairs n r'.val with
        | .error e => .error e
        | .ok (entries, r'') => .ok ((k, v) :: entries, ⟨r''.val, by
            have h1 := r.prop; have h2 := r'.prop; have h3 := r''.prop; omega⟩)
  termination_by (l.length, 1)
  decreasing_by
    all_goals simp_wf
    all_goals first
      | exact Prod.Lex.right _ (by omega)
      | (apply Prod.Lex.left
         (try have hA := r.2); (try have hB := r'.2)
         (try simp only [List.length_cons] at hA)
         (try simp only [List.length_cons] at hB)
         (try simp only [List.length_cons])
         omega)

end

/-- `cbor_decode(data)`: decode the first data item (trailing bytes are
ignored, as in the Python convenience function). -/
def cbor_decode (data : List Nat) : Except PyErr CBORValue :=
  (decodeVal data).map (fun p => p.1)

/-- The CBOR head encodings of the argument `arg` under major type `mt`:
the immediate form (argument below 24 packed into the initial byte) and
the 1/2/4/8-byte big-endian forms of RFC 8949 §3, each usable only when
the argument fits its width. -/
def ValidHeadEnc (mt arg : Nat) (bs : List Nat) : Prop :=
  (arg < 24 ∧ bs = [(mt <<< 5) ||| arg]) ∨
  (arg ≤ 0xFF ∧ bs = [(mt <<< 5) ||| 24, arg]) ∨
  (arg ≤ 0xFFFF ∧ bs = ((mt <<< 5) ||| 25) :: toBytesBE 2 arg) ∨
  (arg ≤ 0xFFFFFFFF ∧ bs = ((mt <<< 5) ||| 26) :: toBytesBE 4 arg) ∨
  (arg < 2 ^ 64 ∧ bs = ((mt <<< 5) ||| 27) :: toBytesBE 8 arg)

/-- Strict ascent of the encoded keys of a map's encoded entries. -/
def sortedKeys : List (List Nat × List Nat) → Bool
  | [] => true
  | [_] => true
  | x :: y :: rest => lexLt x.1 y.1 && sortedKeys (y :: rest)

mutual

/-- Canonical well-formed values: every head argument (integer
magnitude, string length, container size) fits the 8-byte head form that
`struct.pack` supports, and every map is the canonical representative of
a Python `dict` — entries strictly ascending in the encoded-key order
(which also makes the keys distinct, as `dict` keys are). -/
def canonVal : CBORValue → Bool
  | .int n => decide (-(2 ^ 64 : Int) ≤ n) && decide (n < (2 ^ 64 : Int))
  | .bytes bs => decide (bs.length < 2 ^ 64)
  | .text bs => decide (bs.length < 2 ^ 64)
  | .arr items => decide (items.length < 2 ^ 64) && canonItems items
  | .map entries =>
      decide (entries.length < 2 ^ 64) && canonEntries entries &&
        sortedKeys (encodeEntries entries)
  | .bool _ => true
  | .null => true

/-- All list elements canonical. -/
def canonItems : List CBORValue → Bool
  | [] => true
  | v :: vs => canonVal v && canonItems vs

/-- All map keys and values canonical. -/
def canonEntries : List (CBORValue × CBORValue) → Bool
  | [] => true
  | (k, v) :: rest => canonVal k && canonVal v && canonEntries rest

end

/-! ## Endpoint identifiers (`src/bpv7/core/eid.py`)

An `EndpointID` is a validated frozen dataclass; its three legal shapes
are modelled as a sum.  A `dtn:` URI is carried as its UTF-8 bytes. -/
inductive EID where
  | dtnNone
  | dtn (uri : List Nat)
  | ipn (node service : Nat)
  deriving Repr, DecidableEq

/-- `EndpointID.is_none`. -/
def EID.isNone : EID → Bool
  | .dtnNone => true
  | _ => false

/-- `EndpointID.to_cbor_value` (after the `list(...)` conversion applied
at the block-encoding call sites): `dtn:none → [1, 0]`,
`dtn:<uri> → [1, text]`, `ipn → [2, [node, service]]`. -/
def EID.toCborValue : EID → CBORValue
  | .dtnNone => .arr [.int 1, .int 0]
  | .dtn uri => .arr [.int 1, .text uri]
  | .ipn node service => .arr [.int 2, .arr [.int node, .int service]]

/-- `EndpointID.from_cbor_value`, including the validations of
`EndpointID.dtn` (non-empty URI) and `EndpointID.__post_init__`
(non-negative IPN components) that a bad value would trigger. -/
def EID.fromCborValue : CBORValue → Except PyErr EID
  | .arr [.int 1, .int 0] => .ok .dtnNone
  | .arr [.int 1, .text bs] =>
      if bs.isEmpty then .error (.valueError "DTN URI cannot be empty")
      else .ok (.dtn bs)
  | .arr [.int 1, _] => .error (.valueError "Invalid DTN SSP type")
  | .arr [.int 2, .arr [.int node, .int service]] =>
      if node < 0 || service < 0 then
        .error (.valueError "IPN node and service must be non-negative")
      else .ok (.ipn node.toNat service.toNat)
  | .arr [.int 2, _] => .error (.valueError "Invalid IPN SSP")
  | .arr [_, _] => .error (.valueError "Unknown EID scheme code")
  | _ => .error (.valueError "EID must be 2-element array")

/-- Well-formedness of an `EID` value as produced by the public
constructors, with the head-argument bounds needed for encoding:
`EndpointID.dtn` rejects the empty URI, `EndpointID.ipn` components are
naturals. -/
def eidWF : EID → Bool
  | .dtnNone => true
  | .dtn uri => !uri.isEmpty && decide (uri.length < 2 ^ 64)
  | .ipn node service => decide (node < 2 ^ 64) && decide (service < 2 ^ 64)

/-! ## Blocks (`src/bpv7/blocks/primary.py`, `src/bpv7/blocks/payload.py`) -/

/-- `PrimaryBlock` after validation.  `version` is the constant 7.
`lifetime_ms` is kept as a natural, `__post_init__` having rejected
negative values. -/
structure PrimaryBlock where
  destination : EID
  source : EID
  report_to : EID
  creation_ms : Nat
  creation_seq : Nat
  lifetime_ms : Nat
  flags : Nat
  crcType : Nat
  fragment_offset : Option Int
  total_adu_length : Option Int
  deriving Repr, DecidableEq

/-- Constructing a `PrimaryBlock`, with the `__post_init__` validation:
fragment fields present iff the `IS_FRAGMENT` flag (bit 0) is set,
anonymous source implies the unknown timestamp `(0, 0)`, non-negative
lifetime. -/
def mkPrimaryBlock (destination source report_to : EID) (ms seq : Nat)
    (lifetime : Int) (flags crcType : Nat)
    (fragO totalA : Option Int) : Except PyErr PrimaryBlock :=
  let isFragment := flags &&& 1 ≠ 0
  let hasFragFields := fragO.isSome || totalA.isSome
  if isFragment ∧ ¬(hasFragFields = true) then
    .error (.valueError "Fragment flag set but fragment fields missing")
  else if hasFragFields = true ∧ ¬isFragment then
    .error (.valueError "Fragment fields present but IS_FRAGMENT flag not set")
  else if source.isNone ∧ ms ≠ 0 then
    .error (.valueError "Anonymous bundles must have unknown creation time")
  else if source.isNone ∧ seq ≠ 0 then
    .error (.valueError "Anonymous bundles must have sequence number 0")
  else if lifetime < 0 then
    .error (.valueError "Lifetime cannot be negative")
  else
    .ok ⟨destination, source, report_to, ms, seq, lifetime.toNat, flags,
      crcType, fragO, totalA⟩

/-- `PrimaryBlock.to_cbor_array`: the 8 base fields, plus the two
fragment fields when `IS_FRAGMENT` is set.  The CRC value is NOT
included (the docstring defers it to a post-encoding step). -/
def primaryToCborArray (p : PrimaryBlock) : CBORValue :=
  .arr ([.int 7, .int p.flags, .int p.crcType,
    p.destination.toCborValue, p.source.toCborValue, p.report_to.toCborValue,
    .arr [.int p.creation_ms, .int p.creation_seq], .int p.lifetime_ms] ++
    (if p.flags &&& 1 ≠ 0 then
      [(p.fragment_offset.elim CBORValue.null CBORValue.int),
       (p.total_adu_length.elim CBORValue.null CBORValue.int)]
     else []))

/-- `CreationTimestamp.from_cbor_array` + `DTNTime` validation:
a 2-element array of non-negative integers. -/
def parseCreationTs : CBORValue → Except PyErr (Nat × Nat)
  | .arr [.int ms, .int seq] =>
      if ms < 0 then .error (.valueError "DTN time cannot be negative")
      else if seq < 0 then .error (.valueError "Sequence number cannot be negative")
      else .ok (ms.toNat, seq.toNat)
  | .arr l =>
      if l.length ≠ 2 then .error (.valueError "Creation timestamp must be 2-element array")
      else .error (.valueError "Creation timestamp fields must be integers")
  | _ => .error (.valueError "Creation timestamp must be 2-element array")

/-- Read a decoded CBOR integer as a Python non-negative `int` (the
integer-typed primary/canonical fields; a negative or non-integer value
fails the validation that consumes it). -/
def parseNatField : CBORValue → Except PyErr Nat
  | .int n => if n < 0 then .error (.valueError "Field cannot be negative") else .ok n.toNat
  | _ => .error (.valueError "Field must be an integer")

/-- `PrimaryBlock.from_cbor_array`: length and version checks, typed
field extraction, then the constructor validation. -/
def primaryFromCborArray : CBORValue → Except PyErr PrimaryBlock
  | .arr l =>
    if l.length < 8 then .error (.valueError "Primary block too short")
    else
      match l.get? 0 with
      | some (.int 7) =>
        (do
          let flags ← parseNatField (l.getD 1 .null)
          let crcType ← parseNatField (l.getD 2 .null)
          let destination ← EID.fromCborValue (l.getD 3 .null)
          let source ← EID.fromCborValue (l.getD 4 .null)
          let report_to ← EID.fromCborValue (l.getD 5 .null)
          let ts ← parseCreationTs (l.getD 6 .null)
          let lifetime ← (match l.getD 7 .null with
            | .int n => Except.ok n
            | _ => Except.error (.valueError "Lifetime must be an integer"))
          if flags &&& 1 ≠ 0 then
            if l.length < 10 then
              Except.error (.valueError "Fragment flag set but fragment fields missing")
            else
              match l.getD 8 .null, l.getD 9 .null with
              | .int fo, .int ta =>
                mkPrimaryBlock destination source report_to ts.1 ts.2 lifetime
                  flags crcType (some fo) (some ta)
              | _, _ => Except.error (.valueError "Fragment fields must be integers")
          else
            mkPrimaryBlock destination source report_to ts.1 ts.2 lifetime
              flags crcType none none)
      | _ => .error (.valueError "Unsupported bundle version")
  | _ => .error (.valueError "Primary block must be an array")

/-- `PayloadBlock` after validation: `block_number` is forced to 1 by
`__post_init__`, so only the flags, the CRC type and the data remain. -/
structure PayloadBlock where
  flags : Nat
  crcType : Nat
  data : List Nat
  deriving Repr, DecidableEq

/-- `CanonicalBlock.to_cbor_array` for the payload block:
`[block_type, block_number, flags, crc_type, data]`, no CRC. -/
def payloadToCborArray (p : PayloadBlock) : CBORValue :=
  .arr [.int 1, .int 1, .int p.flags, .int p.crcType, .bytes p.data]

/-- `PayloadBlock.from_cbor_array`: length, type, number, flag and data
checks.  The CRC type must be one of {0, 1, 2} (`CRCType` in
`payload.py` is an `IntEnum`, which rejects other values). -/
def payloadFromCborArray : CBORValue → Except PyErr PayloadBlock
  | .arr l =>
    if l.length < 5 then .error (.valueError "Canonical block too short")
    else
      match l.get? 0 with
      | some (.int 1) =>
        match l.get? 1 with
        | some (.int 1) =>
          (do
            let flags ← parseNatField (l.getD 2 .null)
            let crcType ← parseNatField (l.getD 3 .null)
            if crcType ≥ 3 then
              Except.error (.valueError "Unknown CRC type value")
            else
              match l.getD 4 .null with
              | .bytes data => Except.ok ⟨flags, crcType, data⟩
              | _ => Except.error (.valueError "Payload data must be bytes"))
        | _ => .error (.valueError "Payload block number must be 1")
      | _ => .error (.valueError "Expected payload block type 1")
  | _ => .error (.valueError "Canonical block must be an array")

/-- An extension block: the concrete canonical-block subclasses
(previous-node, bundle-age, hop-count) differ only in `block_type` and
in the CBOR item `get_data()` returns, so they are carried as one record
holding that item. -/
structure ExtBlock where
  btype : Nat
  bnum : Nat
  flags : Nat
  crcType : Nat
  data : CBORValue

/-- `CanonicalBlock.to_cbor_array` for an extension block. -/
def extToCborArray (e : ExtBlock) : CBORValue :=
  .arr [.int e.btype, .int e.bnum, .int e.flags, .int e.crcType, e.data]

/-! ## Bundle container (`src/bpv7/core/bundle.py`) -/

/-- A `Bundle`: one primary block, one payload block, extension
blocks. -/
structure Bundle where
  primary : PrimaryBlock
  payload : PayloadBlock
  extensions : List ExtBlock

/-- `Bundle.create(destination, source, payload, lifetime_ms, report_to,
flags)`.  `CreationTimestamp.create()` reads the local clock through
`DTNTime.now()`; the clock reading (milliseconds since the DTN epoch) is
passed in as `nowMs`.  The payload block takes the dataclass defaults
`flags = NONE`, `crc_type = CRC16`; the primary CRC type is `CRC16`. -/
def bundle_create (destination source : EID) (payload : List Nat)
    (lifetime : Int) (report_to : Option EID) (flags : Nat) (nowMs : Nat) :
    Except PyErr Bundle :=
  let rpt := report_to.getD source
  (mkPrimaryBlock destination source rpt nowMs 0 lifetime flags 1
    none none).map fun p => ⟨p, ⟨0, 1, payload⟩, []⟩

/-- `Bundle.add_extension(block)`: refuse a payload block; auto-assign
`max(used) + 1` when the block number is ≤ 1, where
`used = {0, 1} ∪ {existing extension numbers}`. -/
def add_extension (b : Bundle) (blk : ExtBlock) : Except PyErr Bundle :=
  if blk.btype = 1 then .error (.valueError "Cannot add payload as extension")
  else
    let blk' :=
      if blk.bnum ≤ 1 then
        { blk with bnum := ((b.extensions.map ExtBlock.bnum).foldl max 1) + 1 }
      else blk
    .ok { b with extensions := b.extensions ++ [blk'] }

/-- Encode the extension blocks in order (the loop in
`Bundle.encode`). -/
def encodeExts : List ExtBlock → List Nat
  | [] => []
  | e :: es => encodeVal (extToCborArray e) ++ encodeExts es

/-- `Bundle.encode`: indefinite-array open, the blocks' CBOR arrays as
produced by `to_cbor_array` (no CRC fields), break.  `encode_for_crc` /
`replace_crc_in_block` are never invoked on this path. -/
def bundle_encode (b : Bundle) : List Nat :=
  [(4 <<< 5) ||| 31] ++
    encodeVal (primaryToCborArray b.primary) ++
    encodeVal (payloadToCborArray b.payload) ++
    encodeExts b.extensions ++
  [(7 <<< 5) ||| 31]

/-- Python `block_type == BlockType.PAYLOAD`: the decoded first element
of a block array compared with the integer 1.  (A decoded `True` would
also satisfy the Python comparison; no claim exercises that corner.) -/
def isPayloadType : CBORValue → Bool
  | .int n => n == 1
  | _ => false

/-- The loop of `Bundle.decode` over `blocks[1:]`: find the unique
payload block.  Extension block arrays are examined (their first element
is compared against the payload type, a duplicate payload is an error)
and collected into a local list — which the constructor call at the end
of `Bundle.decode` does not use, so they never reach the returned
bundle. -/
def scanBlocks : List CBORValue → Option PayloadBlock →
    Except PyErr PayloadBlock
  | [], none => .error (.valueError "Bundle missing payload block")
  | [], some p => .ok p
  | blockArr :: rest, acc =>
    match blockArr with
    | .arr [] => .error .indexError
    | .arr (btype :: more) =>
      if isPayloadType btype then
        match acc with
        | some _ => .error (.valueError "Multiple payload blocks")
        | none =>
          match payloadFromCborArray (.arr (btype :: more)) with
          | .error e => .error e
          | .ok p => scanBlocks rest (some p)
      else scanBlocks rest acc
    | _ => .error (.valueError "Block must be an array")

/-- `Bundle.decode(data)`: decode the outer CBOR item, require a list of
at least two blocks, parse the primary from the first, scan the rest for
the single payload block, and construct the bundle — without the
extension blocks, which `Bundle.decode` collects but drops. -/
def bundle_decode (data : List Nat) : Except PyErr Bundle :=
  match cbor_decode data with
  | .error e => .error e
  | .ok v =>
    match v with
    | .arr blocks =>
      if blocks.length < 2 then
        .error (.valueError "Bundle must contain at least 2 blocks")
      else
        match primaryFromCborArray (blocks.getD 0 .null) with
        | .error e => .error e
        | .ok primary =>
          match scanBlocks (blocks.drop 1) none with
          | .error e => .error e
          | .ok payload => .ok ⟨primary, payload, []⟩
    | _ => .error (.valueError "Bundle must contain at least 2 blocks")

/-- Well-formedness of a bundle for the encode/decode round trip: the
head-argument bounds, the public-constructor invariants re-checked by
`__post_init__` on the decode side, non-fragment (as every bundle from
`Bundle.create` is), extension types other than payload, and the
payload CRC type in the `IntEnum` range. -/
def bundleWF (b : Bundle) : Bool :=
  eidWF b.primary.destination && eidWF b.primary.source &&
  eidWF b.primary.report_to &&
  decide (b.primary.creation_ms < 2 ^ 64) &&
  decide (b.primary.creation_seq < 2 ^ 64) &&
  decide (b.primary.lifetime_ms < 2 ^ 64) &&
  decide (b.primary.flags < 2 ^ 64) && decide (b.primary.crcType < 2 ^ 64) &&
  (b.primary.flags &&& 1 = 0) &&
  b.primary.fragment_offset.isNone && b.primary.total_adu_length.isNone &&
  (!b.primary.source.isNone || (b.primary.creation_ms = 0 && b.primary.creation_seq = 0)) &&
  decide (b.payload.flags < 2 ^ 64) && decide (b.payload.crcType < 3) &&
  decide (b.payload.data.length < 2 ^ 64) &&
  b.extensions.all (fun e =>
    decide (e.btype ≠ 1) && decide (e.btype < 2 ^ 64) && decide (e.bnum < 2 ^ 64) &&
    decide (e.flags < 2 ^ 64) && decide (e.crcType < 2 ^ 64) && canonVal e.data)

/-- The concrete bundle of the extension-drop counterexample:
`Bundle.create(ipn:2.1, ipn:1.1, b"hi", 3600000)` at clock 1000 ms,
then `add_extension(BundleAgeBlock(age=5))` (block type 7, number
auto-assigned 2). -/
def cxBundle : Bundle :=
  ⟨⟨.ipn 2 1, .ipn 1 1, .ipn 1 1, 1000, 0, 3600000, 0, 1, none, none⟩,
   ⟨0, 1, [104, 105]⟩,
   [⟨7, 2, 0, 1, .int 5⟩]⟩

/-- The concrete bundle of the missing-CRC evaluation:
`Bundle.create(ipn:2.1, ipn:1.1, b"test", 3600000)` at clock 1000 ms. -/
def crcB0 : Bundle :=
  ⟨⟨.ipn 2 1, .ipn 1 1, .ipn 1 1, 1000, 0, 3600000, 0, 1, none, none⟩,
   ⟨0, 1, [116, 101, 115, 116]⟩, []⟩

/-! ## TCPCL (`src/bpv7/agent/tcpcl.py`) -/

/-- `TCPCLConnection.send_bundle`, given the current `_transfer_id`
counter and the encoded bundle: increments the counter and emits one
`XFER_SEGMENT` with both `START` (0x02) and `END` (0x01) flags carrying
the whole bundle, an extension-items length of 0 and an 8-byte data
length.  The peer's advertised `segment_mru` / `transfer_mru` are not
consulted (the session never stores them), and no size check exists. -/
def send_bundle (transferIdCounter : Nat) (bundleData : List Nat) :
    Nat × List Nat :=
  let tid := transferIdCounter + 1
  (tid,
    [0x01, 0x02 ||| 0x01] ++ toBytesBE 8 tid ++ toBytesBE 4 0 ++
      toBytesBE 8 bundleData.length ++ bundleData)

/-- `TCPCLConnection._send_xfer_ack` wire bytes. -/
def xfer_ack_msg (transferId length : Nat) : List Nat :=
  [0x02, 0x00] ++ toBytesBE 8 transferId ++ toBytesBE 8 length

/-- `TCPCLConnection._send_session_term` wire bytes. -/
def session_term_msg (reason : Nat) : List Nat :=
  [0x05, 0x00, reason]

/-- Association-list update for the `_pending_transfers` dict:
`d[k] = v` (replace an existing key, else append). -/
def setEntry (k : Nat) (v : List Nat) :
    List (Nat × List Nat) → List (Nat × List Nat)
  | [] => [(k, v)]
  | (k', v') :: rest =>
      if k' = k then (k, v) :: rest else (k', v') :: setEntry k v rest

/-- Association-list lookup for the `_pending_transfers` dict. -/
def lookupEntry (k : Nat) : List (Nat × List Nat) → Option (List Nat)
  | [] => none
  | (k', v) :: rest => if k' = k then some v else lookupEntry k rest

/-- Association-list removal (`dict.pop`, key known present). -/
def removeEntry (k : Nat) : List (Nat × List Nat) → List (Nat × List Nat)
  | [] => []
  | (k', v) :: rest => if k' = k then rest else (k', v) :: removeEntry k rest

/-- `TCPCLConnection._handle_xfer_segment`, reduced to its effect on the
per-session state: takes the `_pending_transfers` map, the segment's
flags, transfer id and data; returns the new map, the wire messages sent
and the reassembled buffers handed on for bundle decoding.  On `START`
the buffer is created (or replaced); data is appended only `if
transfer_id in self._pending_transfers`, so a non-START segment with an
unknown id is silently ignored; on `END` the buffer is popped — a
`dict.pop` that raises `KeyError` when the id is unknown, which the
`_receive_loop` catches generically, breaking the loop without sending
any message. -/
def handle_xfer_segment (pending : List (Nat × List Nat))
    (flags tid : Nat) (segData : List Nat) :
    Except PyErr (List (Nat × List Nat) × List (List Nat) × List (List Nat)) :=
  let pending1 := if flags &&& 0x02 ≠ 0 then setEntry tid [] pending else pending
  let pending2 :=
    match lookupEntry tid pending1 with
    | some buf => setEntry tid (buf ++ segData) pending1
    | none => pending1
  if flags &&& 0x01 ≠ 0 then
    match lookupEntry tid pending2 with
    | none => .error .keyError
    | some buf =>
        .ok (removeEntry tid pending2, [xfer_ack_msg tid buf.length], [buf])
  else .ok (pending2, [], [])

/-! ## Theorems -/

set_option maxRecDepth 8192 in
/-- C9: the CRC functions meet their standard test vectors: `crc16_x25`
of the ASCII bytes of "123456789" is 0x906E and `crc32c` of the same
bytes is 0xE3069283. -/
theorem crc_test_vectors :
    crc16_x25 [49, 50, 51, 52, 53, 54, 55, 56, 57] = 0x906E ∧
    crc32c [49, 50, 51, 52, 53, 54, 55, 56, 57] = 0xE3069283 := by
  constructor <;> decide

set_option maxRecDepth 8192 in
/-- C8 evaluation: on an encoded block ending in a zero-filled CRC
placeholder (here the encoded empty payload block
`[1, 1, 0, 1, b'', b'\x00\x00']` for CRC type 1, and a CRC-type-2 block
ending in four zero bytes), finalizing with `replace_crc_in_block` and
then checking with `verify_block_crc` yields `false`, not `true`: the
big-endian CRC insertion of `replace_crc_in_block` (RFC 9171 style) is
incompatible with the fixed-residue test `verify_block_crc` applies. -/
theorem crc_finalize_verify_fails :
    (replace_crc_in_block [0x86, 1, 1, 0, 1, 0x40, 0x42, 0, 0] 1).bind
        (fun b => verify_block_crc b 1) = .ok false ∧
    (replace_crc_in_block [0x74, 0x65, 0x73, 0x74, 0, 0, 0, 0] 2).bind
        (fun b => verify_block_crc b 2) = .ok false := by
  constructor <;> decide

lemma toBytesBE_length (k : Nat) : ∀ n, (toBytesBE k n).length = k := by
  induction k with
  | zero => intro n; simp [toBytesBE]
  | succ k ih => intro n; simp [toBytesBE, ih]

lemma fromBytesBE_append (xs : List Nat) (b : Nat) :
    fromBytesBE (xs ++ [b]) = fromBytesBE xs * 256 + b := by
  simp [fromBytesBE, List.foldl_append]

lemma fromBytesBE_toBytesBE (k : Nat) : ∀ n, n < 256 ^ k →
    fromBytesBE (toBytesBE k n) = n := by
  induction k with
  | zero => intro n h; simp at h; simp [toBytesBE, fromBytesBE, h]
  | succ k ih =>
    intro n h
    have hdiv : n / 256 < 256 ^ k := by
      rw [Nat.div_lt_iff_lt_mul (by norm_num)]
      calc n < 256 ^ (k + 1) := h
        _ = 256 ^ k * 256 := by ring
    rw [toBytesBE, fromBytesBE_append, ih _ hdiv]
    omega

lemma initialByte_eq (mt ai : Nat) (h : ai < 32) :
    (mt <<< 5) ||| ai = 32 * mt + ai := by
  calc (mt <<< 5) ||| ai = 2 ^ 5 * mt ||| ai := by
        rw [Nat.shiftLeft_eq, Nat.mul_comm]
    _ = 2 ^ 5 * mt + ai := (Nat.mul_add_lt_is_or (by norm_num [h]) mt).symm
    _ = 32 * mt + ai := by norm_num

lemma initialByte_shift (mt ai : Nat) (h : ai < 32) :
    ((mt <<< 5) ||| ai) >>> 5 = mt := by
  rw [initialByte_eq mt ai h, Nat.shiftRight_eq_div_pow]
  have : (2 : Nat) ^ 5 = 32 := by norm_num
  rw [this]
  omega

lemma initialByte_mask (mt ai : Nat) (h : ai < 32) :
    ((mt <<< 5) ||| ai) &&& 0x1F = ai := by
  rw [initialByte_eq mt ai h]
  have h31 : (0x1F : Nat) = 2 ^ 5 - 1 := by norm_num
  rw [h31, Nat.and_pow_two_sub_one_eq_mod]
  omega

lemma map_strip_ok {ε α β : Type} {P : β → Prop}
    (e : Except ε (α × {x : β // P x})) (a : α) (b : β) (hb : P b)
    (h : e.map (fun p => (p.1, p.2.val)) = .ok (a, b)) : e = .ok (a, ⟨b, hb⟩) := by
  cases e with
  | error _ => simp [Except.map] at h
  | ok p =>
    obtain ⟨a', v, hv⟩ := p
    simp [Except.map] at h
    obtain ⟨h1, h2⟩ := h
    subst h1; subst h2
    rfl

lemma decodeArg_encodeHead (mt arg : Nat) (h64 : arg < 2 ^ 64) (rest : List Nat) :
    ∃ b tail, ∃ hp : rest.length ≤ tail.length,
      encodeHead mt arg ++ rest = b :: tail ∧
      b >>> 5 = mt ∧
      decodeArgument (b &&& 0x1F) tail = .ok ((arg : Int), ⟨rest, hp⟩) := by
  unfold encodeHead
  by_cases h1 : arg < 24
  · refine ⟨(mt <<< 5) ||| arg, rest, Nat.le_refl _, by simp [h1], 
      initialByte_shift _ _ (by omega), ?_⟩
    rw [initialByte_mask _ _ (by omega)]
    simp [decodeArgument, h1]
  · by_cases h2 : arg ≤ 0xFF
    · refine ⟨(mt <<< 5) ||| 24, arg :: rest, by simp, by simp [h1, h2],
        initialByte_shift _ _ (by omega), ?_⟩
      rw [initialByte_mask _ _ (by omega)]
      simp [decodeArgument]
    · by_cases h3 : arg ≤ 0xFFFF
      · refine ⟨(mt <<< 5) ||| 25, toBytesBE 2 arg ++ rest,
          by simp [toBytesBE_length], by simp [h1, h2, h3],
          initialByte_shift _ _ (by omega), ?_⟩
        rw [initialByte_mask _ _ (by omega)]
        have hlen : (2 : Nat) ≤ (toBytesBE 2 arg ++ rest).length := by
          rw [List.length_append, toBytesBE_length]; omega
        have htake : (toBytesBE 2 arg ++ rest).take 2 = toBytesBE 2 arg :=
          List.take_left' (toBytesBE_length 2 arg)
        have hdrop : (toBytesBE 2 arg ++ rest).drop 2 = rest :=
          List.drop_left' (toBytesBE_length 2 arg)
        simp [decodeArgument, hlen, htake, hdrop, toBytesBE_length,
          fromBytesBE_toBytesBE 2 arg (by norm_num; omega)]
      · by_cases h4 : arg ≤ 0xFFFFFFFF
        · refine ⟨(mt <<< 5) ||| 26, toBytesBE 4 arg ++ rest,
            by simp [toBytesBE_length], by simp [h1, h2, h3, h4],
            initialByte_shift _ _ (by omega), ?_⟩
          rw [initialByte_mask _ _ (by omega)]
          have hlen : (4 : Nat) ≤ (toBytesBE 4 arg ++ rest).length := by
            rw [List.length_append, toBytesBE_length]; omega
          have htake : (toBytesBE 4 arg ++ rest).take 4 = toBytesBE 4 arg :=
            List.take_left' (toBytesBE_length 4 arg)
          have hdrop : (toBytesBE 4 arg ++ rest).drop 4 = rest :=
            List.drop_left' (toBytesBE_length 4 arg)
          simp [decodeArgument, hlen, htake, hdrop, toBytesBE_length,
            fromBytesBE_toBytesBE 4 arg (by norm_num; omega)]
        · refine ⟨(mt <<< 5) ||| 27, toBytesBE 8 arg ++ rest,
            by simp [toBytesBE_length], by simp [h1, h2, h3, h4],
            initialByte_shift _ _ (by omega), ?_⟩
          rw [initialByte_mask _ _ (by omega)]
          have hlen : (8 : Nat) ≤ (toBytesBE 8 arg ++ rest).length := by
            rw [List.length_append, toBytesBE_length]; omega
          have htake : (toBytesBE 8 arg ++ rest).take 8 = toBytesBE 8 arg :=
            List.take_left' (toBytesBE_length 8 arg)
          have hdrop : (toBytesBE 8 arg ++ rest).drop 8 = rest :=
            List.drop_left' (toBytesBE_length 8 arg)
          simp [decodeArgument, hlen, htake, hdrop, toBytesBE_length,
            fromBytesBE_toBytesBE 8 arg (by norm_num; omega)]

lemma insertPair_of_lt (x y : List Nat × List Nat)
    (ys : List (List Nat × List Nat)) (h : lexLt x.1 y.1 = true) :
    insertPair x (y :: ys) = x :: y :: ys := by
  simp [insertPair, h]

lemma sortPairs_of_sorted :
    ∀ es : List (List Nat × List Nat), sortedKeys es = true → sortPairs es = es := by
  intro es
  induction es with
  | nil => intro _; simp [sortPairs]
  | cons x xs ih =>
    intro h
    cases xs with
    | nil => simp [sortPairs, insertPair]
    | cons y ys =>
      have h1 : lexLt x.1 y.1 = true := by
        simp [sortedKeys] at h; exact h.1
      have h2 : sortedKeys (y :: ys) = true := by
        simp [sortedKeys] at h; exact h.2
      rw [sortPairs, ih h2, insertPair_of_lt x y ys h1]

lemma encodeHead_length_pos (mt arg : Nat) : 0 < (encodeHead mt arg).length := by
  unfold encodeHead
  split_ifs <;> simp

lemma encodeVal_length_pos : ∀ v : CBORValue, 0 < (encodeVal v).length := by
  intro v
  cases v with
  | int n =>
    rw [encodeVal]
    split_ifs <;> exact encodeHead_length_pos _ _
  | bytes bs =>
    rw [encodeVal]; rw [List.length_append]
    have := encodeHead_length_pos 2 bs.length; omega
  | text bs =>
    rw [encodeVal]; rw [List.length_append]
    have := encodeHead_length_pos 3 bs.length; omega
  | arr items =>
    rw [encodeVal]; rw [List.length_append]
    have := encodeHead_length_pos 4 items.length; omega
  | map entries =>
    rw [encodeVal]; rw [List.length_append]
    have := encodeHead_length_pos 5 entries.length; omega
  | bool b => rw [encodeVal]; split_ifs <;> simp
  | null => rw [encodeVal]; simp

lemma rtItemsAux : ∀ (vs : List CBORValue),
    (∀ x, x ∈ vs → canonVal x = true → ∀ rest : List Nat,
      (decodeVal (encodeVal x ++ rest)).map (fun p => (p.1, p.2.val)) = .ok (x, rest)) →
    canonItems vs = true →
    ∀ rest : List Nat,
      (decodeItems vs.length (encodeItems vs ++ rest)).map (fun p => (p.1, p.2.val)) =
        .ok (vs, rest) := by
  intro vs
  induction vs with
  | nil => intro _ _ rest; simp [encodeItems, decodeItems, Except.map]
  | cons v vs ih =>
    intro IH hc rest
    have hcv : canonVal v = true := by
      simp [canonItems, Bool.and_eq_true] at hc; exact hc.1
    have hcs : canonItems vs = true := by
      simp [canonItems, Bool.and_eq_true] at hc; exact hc.2
    have hb : (encodeItems vs ++ rest).length <
        (encodeVal v ++ (encodeItems vs ++ rest)).length := by
      simp only [List.length_append]
      have := encodeVal_length_pos v; omega
    have h1 := map_strip_ok (decodeVal (encodeVal v ++ (encodeItems vs ++ rest)))
      v (encodeItems vs ++ rest) hb (IH v (by simp) hcv (encodeItems vs ++ rest))
    have hb2 : rest.length ≤ (encodeItems vs ++ rest).length := by
      simp only [List.length_append]; omega
    have h2 := map_strip_ok (decodeItems vs.length (encodeItems vs ++ rest)) vs rest hb2
      (ih (fun x hx => IH x (by simp [hx])) hcs rest)
    show (decodeItems (v :: vs).length (encodeItems (v :: vs) ++ rest)).map
        (fun p => (p.1, p.2.val)) = .ok (v :: vs, rest)
    have hshape : encodeItems (v :: vs) ++ rest = encodeVal v ++ (encodeItems vs ++ rest) := by
      rw [encodeItems, List.append_assoc]
    rw [hshape, List.length_cons, decodeItems]
    simp only [h1, h2]
    simp [Except.map]

lemma rtPairsAux : ∀ (es : List (CBORValue × CBORValue)),
    (∀ x : CBORValue × CBORValue, x ∈ es →
      (canonVal x.1 = true → ∀ rest : List Nat,
        (decodeVal (encodeVal x.1 ++ rest)).map (fun p => (p.1, p.2.val)) = .ok (x.1, rest)) ∧
      (canonVal x.2 = true → ∀ rest : List Nat,
        (decodeVal (encodeVal x.2 ++ rest)).map (fun p => (p.1, p.2.val)) = .ok (x.2, rest))) →
    canonEntries es = true →
    ∀ rest : List Nat,
      (decodePairs es.length (joinPairs (encodeEntries es) ++ rest)).map
        (fun p => (p.1, p.2.val)) = .ok (es, rest) := by
  intro es
  induction es with
  | nil => intro _ _ rest; simp [encodeEntries, joinPairs, decodePairs, Except.map]
  | cons kv es ih =>
    intro IH hc rest
    obtain ⟨k, v⟩ := kv
    simp only [canonEntries, Bool.and_eq_true] at hc
    have hck : canonVal k = true := hc.1.1
    have hcv : canonVal v = true := hc.1.2
    have hcs : canonEntries es = true := hc.2
    have hbk : (encodeVal v ++ (joinPairs (encodeEntries es) ++ rest)).length <
        (encodeVal k ++ (encodeVal v ++ (joinPairs (encodeEntries es) ++ rest))).length := by
      simp only [List.length_append]
      have := encodeVal_length_pos k; omega
    have hbv : (joinPairs (encodeEntries es) ++ rest).length <
        (encodeVal v ++ (joinPairs (encodeEntries es) ++ rest)).length := by
      simp only [List.length_append]
      have := encodeVal_length_pos v; omega
    have h1 := map_strip_ok
      (decodeVal (encodeVal k ++ (encodeVal v ++ (joinPairs (encodeEntries es) ++ rest))))
      k (encodeVal v ++ (joinPairs (encodeEntries es) ++ rest)) hbk
      ((IH (k, v) (by simp)).1 hck (encodeVal v ++ (joinPairs (encodeEntries es) ++ rest)))
    have h2 := map_strip_ok
      (decodeVal (encodeVal v ++ (joinPairs (encodeEntries es) ++ rest)))
      v (joinPairs (encodeEntries es) ++ rest) hbv
      ((IH (k, v) (by simp)).2 hcv (joinPairs (encodeEntries es) ++ rest))
    have hb3 : rest.length ≤ (joinPairs (encodeEntries es) ++ rest).length := by
      simp only [List.length_append]; omega
    have h3 := map_strip_ok
      (decodePairs es.length (joinPairs (encodeEntries es) ++ rest)) es rest hb3
      (ih (fun x hx => IH x (by simp [hx])) hcs rest)
    show (decodePairs ((k, v) :: es).length (joinPairs (encodeEntries ((k, v) :: es)) ++ rest)).map
        (fun p => (p.1, p.2.val)) = .ok ((k, v) :: es, rest)
    have hshape : joinPairs (encodeEntries ((k, v) :: es)) ++ rest =
        encodeVal k ++ (encodeVal v ++ (joinPairs (encodeEntries es) ++ rest)) := by
      rw [encodeEntries, joinPairs]
      simp [List.append_assoc]
    rw [hshape, List.length_cons, decodePairs]
    simp only [h1, h2, h3]
    simp [Except.map]

theorem rtVal (v : CBORValue) (hc : canonVal v = true) (rest : List Nat) :
    (decodeVal (encodeVal v ++ rest)).map (fun p => (p.1, p.2.val)) = .ok (v, rest) := by
  match v with
  | .null =>
    rw [encodeVal, List.singleton_append]
    simp only [decodeVal]
    simp [(by decide : (246 : Nat) &&& 31 = 22), Except.map]
  | .bool b =>
    cases b with
    | false =>
      have he : encodeVal (.bool false) = [244] := by simp [encodeVal]
      rw [he, List.singleton_append]
      simp only [decodeVal]
      simp [(by decide : (244 : Nat) &&& 31 = 20), Except.map]
    | true =>
      have he : encodeVal (.bool true) = [245] := by simp [encodeVal]
      rw [he, List.singleton_append]
      simp only [decodeVal]
      simp [(by decide : (245 : Nat) &&& 31 = 21), Except.map]
  | .int n =>
    have hcb : -(2 ^ 64 : Int) ≤ n ∧ n < 2 ^ 64 := by
      simp [canonVal, Bool.and_eq_true] at hc; exact hc
    rw [encodeVal]
    by_cases hn : 0 ≤ n
    · rw [if_pos hn]
      have htn : (n.toNat : Int) = n := Int.toNat_of_nonneg hn
      obtain ⟨b, tail, hp, heq, hsh, harg⟩ :=
        decodeArg_encodeHead 0 n.toNat (by omega) rest
      rw [heq]
      simp only [decodeVal]
      simp [hsh, harg, Except.map, htn]
    · rw [if_neg hn]
      have htn : ((-1 - n).toNat : Int) = -1 - n := Int.toNat_of_nonneg (by omega)
      obtain ⟨b, tail, hp, heq, hsh, harg⟩ :=
        decodeArg_encodeHead 1 (-1 - n).toNat (by omega) rest
      rw [heq]
      simp only [decodeVal]
      simp [hsh, harg, Except.map, htn]
  | .bytes bs =>
    have hlen : bs.length < 2 ^ 64 := by simp [canonVal] at hc; exact hc
    rw [encodeVal, List.append_assoc]
    obtain ⟨b, tail, hp, heq, hsh, harg⟩ :=
      decodeArg_encodeHead 2 bs.length hlen (bs ++ rest)
    rw [heq]
    simp only [decodeVal]
    have hnn : ¬((bs.length : Int) < 0) := by omega
    simp [hsh, harg, Except.map, List.take_left, List.drop_left, hnn]
  | .text bs =>
    have hlen : bs.length < 2 ^ 64 := by simp [canonVal] at hc; exact hc
    rw [encodeVal, List.append_assoc]
    obtain ⟨b, tail, hp, heq, hsh, harg⟩ :=
      decodeArg_encodeHead 3 bs.length hlen (bs ++ rest)
    rw [heq]
    simp only [decodeVal]
    have hnn : ¬((bs.length : Int) < 0) := by omega
    simp [hsh, harg, Except.map, List.take_left, List.drop_left, hnn]
  | .arr items =>
    have hcc : items.length < 2 ^ 64 ∧ canonItems items = true := by
      simp [canonVal, Bool.and_eq_true] at hc; exact hc
    rw [encodeVal, List.append_assoc]
    obtain ⟨b, tail, hp, heq, hsh, harg⟩ :=
      decodeArg_encodeHead 4 items.length hcc.1 (encodeItems items ++ rest)
    rw [heq]
    simp only [decodeVal]
    have hitems := rtItemsAux items
      (fun x hx hcx r => rtVal x hcx r) hcc.2 rest
    have hb2 : rest.length ≤ (encodeItems items ++ rest).length := by
      simp only [List.length_append]; omega
    have hlift := map_strip_ok
      (decodeItems items.length (encodeItems items ++ rest)) items rest hb2 hitems
    have hnn : ¬((items.length : Int) < 0) := by omega
    simp [hsh, harg, hlift, Except.map, hnn]
  | .map entries =>
    have hcc : (entries.length < 2 ^ 64 ∧ canonEntries entries = true) ∧
        sortedKeys (encodeEntries entries) = true := by
      simp [canonVal, Bool.and_eq_true] at hc; exact hc
    rw [encodeVal, sortPairs_of_sorted _ hcc.2, List.append_assoc]
    obtain ⟨b, tail, hp, heq, hsh, harg⟩ :=
      decodeArg_encodeHead 5 entries.length hcc.1.1
        (joinPairs (encodeEntries entries) ++ rest)
    rw [heq]
    simp only [decodeVal]
    have hpairs := rtPairsAux entries
      (fun x hx => by
        obtain ⟨k, w⟩ := x
        exact ⟨fun hck r => rtVal k hck r, fun hcw r => rtVal w hcw r⟩)
      hcc.1.2 rest
    have hb2 : rest.length ≤ (joinPairs (encodeEntries entries) ++ rest).length := by
      simp only [List.length_append]; omega
    have hlift := map_strip_ok
      (decodePairs entries.length (joinPairs (encodeEntries entries) ++ rest))
      entries rest hb2 hpairs
    have hnn : ¬((entries.length : Int) < 0) := by omega
    simp [hsh, harg, hlift, Except.map, hnn]
termination_by sizeOf v
decreasing_by
  · have h1 := List.sizeOf_lt_of_mem hx
    simp only [CBORValue.arr.sizeOf_spec]
    omega
  · have h1 := List.sizeOf_lt_of_mem hx
    simp only [CBORValue.map.sizeOf_spec, Prod.mk.sizeOf_spec] at h1 ⊢
    omega
  · have h1 := List.sizeOf_lt_of_mem hx
    simp only [CBORValue.map.sizeOf_spec, Prod.mk.sizeOf_spec] at h1 ⊢
    omega

/-- C5: for every value in the CBOR-supported set (integers of either
sign, byte strings, text strings, lists, maps with supported keys,
booleans, null — canonically represented and with the head arguments in
the encodable range), decoding the bytes the encoder produces yields the
value again: `decode(encode(v)) == v`. -/
theorem cbor_roundtrip (v : CBORValue) (h : canonVal v = true) :
    cbor_decode (cbor_encode v) = .ok v := by
  have hrt := rtVal v h []
  rw [List.append_nil] at hrt
  unfold cbor_decode cbor_encode
  cases hd : decodeVal (encodeVal v) with
  | error e => rw [hd] at hrt; simp [Except.map] at hrt
  | ok p =>
    rw [hd] at hrt
    obtain ⟨v', r⟩ := p
    simp [Except.map] at hrt ⊢
    exact hrt.1

/-- Witness for C5 at a concrete nested value. -/
theorem cbor_roundtrip_witness :
    canonVal (.map [(.int 1, .bytes [255, 0]),
      (.text [97], .arr [.int (-300), .null, .bool true])]) = true ∧
    cbor_decode (cbor_encode (.map [(.int 1, .bytes [255, 0]),
      (.text [97], .arr [.int (-300), .null, .bool true])])) =
      .ok (.map [(.int 1, .bytes [255, 0]),
        (.text [97], .arr [.int (-300), .null, .bool true])]) :=
  ⟨by decide, cbor_roundtrip _ (by decide)⟩

/-- C6 evaluation: decoding the single byte `0x9F` (the opening of an
indefinite-length array, followed by end of input) fails with the
uncaught out-of-range subscript of `self._data[self._pos]`
(`IndexError`), not with the structured end-of-data error. -/
theorem decode_truncated_indefinite_is_index_error :
    cbor_decode [0x9F] = .error .indexError := by
  unfold cbor_decode
  simp only [decodeVal]
  simp [(by decide : (159 : Nat) &&& 31 = 31), decodeArgument,
    decodeIndefItems, Except.map]

/-- C7: every emitted head uses shortest-form argument encoding — an
argument below 24 is packed into the initial byte, and the head chosen
by `_encode_head` is a valid head for the argument that is no longer
than any other valid head encoding of the same argument. -/
theorem encode_head_shortest (mt arg : Nat) (h64 : arg < 2 ^ 64) :
    ValidHeadEnc mt arg (encodeHead mt arg) ∧
    (arg < 24 → encodeHead mt arg = [(mt <<< 5) ||| arg]) ∧
    ∀ bs, ValidHeadEnc mt arg bs → (encodeHead mt arg).length ≤ bs.length := by
  refine ⟨?_, ?_, ?_⟩
  · unfold ValidHeadEnc encodeHead
    split_ifs with h1 h2 h3 h4
    · exact Or.inl ⟨h1, rfl⟩
    · exact Or.inr (Or.inl ⟨h2, rfl⟩)
    · exact Or.inr (Or.inr (Or.inl ⟨h3, rfl⟩))
    · exact Or.inr (Or.inr (Or.inr (Or.inl ⟨h4, rfl⟩)))
    · exact Or.inr (Or.inr (Or.inr (Or.inr ⟨h64, rfl⟩)))
  · intro h
    unfold encodeHead
    rw [if_pos h]
  · intro bs hbs
    have hlen : (encodeHead mt arg).length =
        if arg < 24 then 1 else if arg ≤ 0xFF then 2
        else if arg ≤ 0xFFFF then 3 else if arg ≤ 0xFFFFFFFF then 5 else 9 := by
      unfold encodeHead
      split_ifs <;> simp [toBytesBE_length]
    rcases hbs with ⟨h, hb⟩ | ⟨h, hb⟩ | ⟨h, hb⟩ | ⟨h, hb⟩ | ⟨h, hb⟩ <;>
      subst hb <;> simp [toBytesBE_length] <;> rw [hlen] <;> split_ifs <;> omega

/-- Witness for C7 at the concrete argument 300 (two-byte form). -/
theorem encode_head_shortest_witness :
    (300 : Nat) < 2 ^ 64 ∧ ValidHeadEnc 0 300 (encodeHead 0 300) :=
  ⟨by norm_num, (encode_head_shortest 0 300 (by norm_num)).1⟩

lemma encodeHead_head_ne_break (mt arg : Nat) (hmt : mt ≤ 5) :
    ∃ hb tb, encodeHead mt arg = hb :: tb ∧ hb ≠ 255 := by
  have hbyte : ∀ ai : Nat, ai < 32 → (mt <<< 5) ||| ai ≠ 255 := by
    intro ai hai
    rw [initialByte_eq mt ai hai]
    omega
  unfold encodeHead
  split_ifs with h1 h2 h3 h4
  · exact ⟨_, _, rfl, hbyte arg (by omega)⟩
  · exact ⟨_, _, rfl, hbyte 24 (by omega)⟩
  · exact ⟨_, _, rfl, hbyte 25 (by omega)⟩
  · exact ⟨_, _, rfl, hbyte 26 (by omega)⟩
  · exact ⟨_, _, rfl, hbyte 27 (by omega)⟩

lemma encodeVal_head_ne_break (v : CBORValue) :
    ∃ hb tb, encodeVal v = hb :: tb ∧ hb ≠ 255 := by
  cases v with
  | int n =>
    rw [encodeVal]
    split_ifs with hn
    · exact encodeHead_head_ne_break 0 n.toNat (by omega)
    · exact encodeHead_head_ne_break 1 (-1 - n).toNat (by omega)
  | bytes bs =>
    rw [encodeVal]
    obtain ⟨hb, tb, he, hne⟩ := encodeHead_head_ne_break 2 bs.length (by omega)
    exact ⟨hb, tb ++ bs, by rw [he]; simp, hne⟩
  | text bs =>
    rw [encodeVal]
    obtain ⟨hb, tb, he, hne⟩ := encodeHead_head_ne_break 3 bs.length (by omega)
    exact ⟨hb, tb ++ bs, by rw [he]; simp, hne⟩
  | arr items =>
    rw [encodeVal]
    obtain ⟨hb, tb, he, hne⟩ := encodeHead_head_ne_break 4 items.length (by omega)
    exact ⟨hb, tb ++ encodeItems items, by rw [he]; simp, hne⟩
  | map entries =>
    rw [encodeVal]
    obtain ⟨hb, tb, he, hne⟩ :=
      encodeHead_head_ne_break 5 entries.length (by omega)
    exact ⟨hb, tb ++ joinPairs (sortPairs (encodeEntries entries)),
      by rw [he]; simp, hne⟩
  | bool b =>
    cases b with
    | false => exact ⟨244, [], by simp [encodeVal], by decide⟩
    | true => exact ⟨245, [], by simp [encodeVal], by decide⟩
  | null => exact ⟨246, [], by simp [encodeVal], by decide⟩

lemma rtIndefAux : ∀ (vs : List CBORValue),
    (∀ x, x ∈ vs → canonVal x = true) →
    ∀ rest : List Nat,
      (decodeIndefItems (encodeItems vs ++ 255 :: rest)).map
        (fun p => (p.1, p.2.val)) = .ok (vs, rest) := by
  intro vs
  induction vs with
  | nil =>
    intro _ rest
    show (decodeIndefItems (encodeItems [] ++ 255 :: rest)).map _ = _
    rw [encodeItems, List.nil_append, decodeIndefItems]
    simp [Except.map]
  | cons v vs ih =>
    intro hall rest
    have hcv : canonVal v = true := hall v (by simp)
    obtain ⟨hb, tb, hev, hne⟩ := encodeVal_head_ne_break v
    have hshape : encodeItems (v :: vs) ++ 255 :: rest =
        hb :: (tb ++ (encodeItems vs ++ 255 :: rest)) := by
      rw [encodeItems, List.append_assoc, hev]
      simp
    have hvv : encodeVal v ++ (encodeItems vs ++ 255 :: rest) =
        hb :: (tb ++ (encodeItems vs ++ 255 :: rest)) := by
      rw [hev]; simp
    have hrt := rtVal v hcv (encodeItems vs ++ 255 :: rest)
    rw [hev, List.cons_append] at hrt
    have hb1 : (encodeItems vs ++ 255 :: rest).length <
        (hb :: (tb ++ (encodeItems vs ++ 255 :: rest))).length := by
      simp only [List.length_cons, List.length_append]
      omega
    have h1 := map_strip_ok
      (decodeVal (hb :: (tb ++ (encodeItems vs ++ 255 :: rest))))
      v (encodeItems vs ++ 255 :: rest) hb1 hrt
    have hb2 : rest.length < (encodeItems vs ++ 255 :: rest).length := by
      simp only [List.length_append, List.length_cons]
      omega
    have h2 := map_strip_ok (decodeIndefItems (encodeItems vs ++ 255 :: rest))
      vs rest hb2 (ih (fun x hx => hall x (by simp [hx])) rest)
    rw [hshape, decodeIndefItems]
    simp only [if_neg hne, h1, h2]
    simp [Except.map]

lemma eid_canon (e : EID) (h : eidWF e = true) : canonVal e.toCborValue = true := by
  cases e with
  | dtnNone => decide
  | dtn uri =>
    simp [eidWF] at h
    simp [EID.toCborValue, canonVal, canonItems]
    omega
  | ipn node service =>
    simp [eidWF] at h
    simp [EID.toCborValue, canonVal, canonItems]
    constructor <;> constructor <;> omega

lemma eid_roundtrip (e : EID) (h : eidWF e = true) :
    EID.fromCborValue e.toCborValue = .ok e := by
  cases e with
  | dtnNone => rfl
  | dtn uri =>
    simp [eidWF] at h
    simp [EID.toCborValue, EID.fromCborValue, h.1]
  | ipn node service =>
    simp [EID.toCborValue, EID.fromCborValue]

lemma payload_canon (pl : PayloadBlock) (hfl : pl.flags < 2 ^ 64)
    (hcrc : pl.crcType < 3) (hd : pl.data.length < 2 ^ 64) :
    canonVal (payloadToCborArray pl) = true := by
  simp [payloadToCborArray, canonVal, canonItems]
  constructor <;> constructor <;> omega

lemma payload_roundtrip (pl : PayloadBlock) (hcrc : pl.crcType < 3) :
    payloadFromCborArray (payloadToCborArray pl) = .ok pl := by
  obtain ⟨fl, crc, data⟩ := pl
  have hif : ¬(crc ≥ 3) := by simp at hcrc; omega
  have hfl0 : ¬((fl : Int) < 0) := by omega
  have hcrc0 : ¬((crc : Int) < 0) := by omega
  simp [payloadToCborArray, payloadFromCborArray, parseNatField,
    List.getD, Except.bind, bind, hif, hfl0, hcrc0]

lemma ext_canon (e : ExtBlock) (hb : e.btype < 2 ^ 64) (hn : e.bnum < 2 ^ 64)
    (hf : e.flags < 2 ^ 64) (hc : e.crcType < 2 ^ 64)
    (hd : canonVal e.data = true) :
    canonVal (extToCborArray e) = true := by
  simp [extToCborArray, canonVal, canonItems, hd]
  constructor <;> constructor <;> omega

lemma encodeExts_eq (es : List ExtBlock) :
    encodeExts es = encodeItems (es.map extToCborArray) := by
  induction es with
  | nil => simp [encodeExts, encodeItems]
  | cons e es ih => simp [encodeExts, encodeItems, ih]

lemma primary_canon (p : PrimaryBlock)
    (h1 : eidWF p.destination = true) (h2 : eidWF p.source = true)
    (h3 : eidWF p.report_to = true)
    (hms : p.creation_ms < 2 ^ 64) (hseq : p.creation_seq < 2 ^ 64)
    (hlt : p.lifetime_ms < 2 ^ 64) (hfl : p.flags < 2 ^ 64)
    (hcrc : p.crcType < 2 ^ 64) (hnf : p.flags &&& 1 = 0) :
    canonVal (primaryToCborArray p) = true := by
  have hmod : p.flags % 2 = 0 := by rw [← Nat.and_one_is_mod]; exact hnf
  simp [primaryToCborArray, canonVal, canonItems, hmod,
    eid_canon _ h1, eid_canon _ h2, eid_canon _ h3]
  omega

lemma primary_roundtrip (p : PrimaryBlock)
    (h1 : eidWF p.destination = true) (h2 : eidWF p.source = true)
    (h3 : eidWF p.report_to = true)
    (hnf : p.flags &&& 1 = 0)
    (hfo : p.fragment_offset = none) (hta : p.total_adu_length = none)
    (hsrc : p.source.isNone = true → p.creation_ms = 0 ∧ p.creation_seq = 0) :
    primaryFromCborArray (primaryToCborArray p) = .ok p := by
  obtain ⟨dst, src, rpt, ms, seq, lt, fl, crc, fo, ta⟩ := p
  simp only at h1 h2 h3 hnf hfo hta hsrc
  subst hfo; subst hta
  have hmod : fl % 2 = 0 := by rw [← Nat.and_one_is_mod]; exact hnf
  have hfl0 : ¬((fl : Int) < 0) := by omega
  have hcrc0 : ¬((crc : Int) < 0) := by omega
  have hms0 : ¬((ms : Int) < 0) := by omega
  have hseq0 : ¬((seq : Int) < 0) := by omega
  have hlt0 : ¬((lt : Int) < 0) := by omega
  simp [primaryToCborArray, hmod, primaryFromCborArray, parseNatField,
    parseCreationTs, List.getD, Except.bind, bind,
    eid_roundtrip _ h1, eid_roundtrip _ h2, eid_roundtrip _ h3,
    hfl0, hcrc0, hms0, hseq0, hlt0, mkPrimaryBlock]
  by_cases hn : src.isNone = true
  · have := hsrc hn
    simp [hn, this.1, this.2]
  · simp [hn]

lemma scanBlocks_exts (es : List ExtBlock) (hne : ∀ e ∈ es, e.btype ≠ 1)
    (p : PayloadBlock) :
    scanBlocks (es.map extToCborArray) (some p) = .ok p := by
  induction es with
  | nil => rfl
  | cons e es ih =>
    have h1 : e.btype ≠ 1 := hne e (by simp)
    have hip : isPayloadType (.int e.btype) = false := by
      simp [isPayloadType]
      exact_mod_cast h1
    simp [extToCborArray, scanBlocks, hip]
    exact ih (fun x hx => hne x (by simp [hx]))

lemma bundle_roundtrip_general (b : Bundle) (h : bundleWF b = true) :
    bundle_decode (bundle_encode b) = .ok ⟨b.primary, b.payload, []⟩ := by
  simp only [bundleWF, Bool.and_eq_true, List.all_eq_true, decide_eq_true_eq,
    Nat.and_one_is_mod, Option.isNone_iff_eq_none, Bool.not_eq_true',
    Bool.or_eq_true] at h
  obtain ⟨⟨⟨⟨⟨⟨⟨⟨⟨⟨⟨⟨⟨⟨⟨hd, hs⟩, hr⟩, hms⟩, hseq⟩, hlt⟩, hfl⟩, hcrc⟩,
    hmod⟩, hfo⟩, hta⟩, hanon⟩, hplf⟩, hplc⟩, hpld⟩, hext⟩ := h
  have hnf : b.primary.flags &&& 1 = 0 := by rw [Nat.and_one_is_mod]; exact hmod
  have hsrc : b.primary.source.isNone = true →
      b.primary.creation_ms = 0 ∧ b.primary.creation_seq = 0 := by
    intro hn
    rcases hanon with h' | h'
    · rw [hn] at h'; cases h'
    · exact h'
  have hshape : bundle_encode b = 159 ::
      (encodeItems (primaryToCborArray b.primary :: payloadToCborArray b.payload ::
        b.extensions.map extToCborArray) ++ 255 :: ([] : List Nat)) := by
    simp [bundle_encode, encodeItems, encodeExts_eq, List.append_assoc]
  have hall : ∀ x ∈ (primaryToCborArray b.primary :: payloadToCborArray b.payload ::
      b.extensions.map extToCborArray), canonVal x = true := by
    intro x hx
    simp only [List.mem_cons, List.mem_map] at hx
    rcases hx with rfl | rfl | ⟨e, he, rfl⟩
    · exact primary_canon _ hd hs hr hms hseq hlt hfl hcrc hnf
    · exact payload_canon _ hplf hplc hpld
    · have ha := hext e he
      exact ext_canon e ha.1.1.1.1.2 ha.1.1.1.2 ha.1.1.2 ha.1.2 ha.2
  have hlen0 : ([] : List Nat).length <
      (encodeItems (primaryToCborArray b.primary :: payloadToCborArray b.payload ::
        b.extensions.map extToCborArray) ++ 255 :: ([] : List Nat)).length := by
    simp
  have hind := map_strip_ok
    (decodeIndefItems (encodeItems (primaryToCborArray b.primary ::
      payloadToCborArray b.payload :: b.extensions.map extToCborArray) ++
      255 :: ([] : List Nat)))
    (primaryToCborArray b.primary :: payloadToCborArray b.payload ::
      b.extensions.map extToCborArray)
    ([] : List Nat) hlen0
    (rtIndefAux (primaryToCborArray b.primary :: payloadToCborArray b.payload ::
      b.extensions.map extToCborArray) hall [])
  have hdec : cbor_decode (bundle_encode b) =
      .ok (.arr (primaryToCborArray b.primary :: payloadToCborArray b.payload ::
        b.extensions.map extToCborArray)) := by
    rw [hshape]
    unfold cbor_decode
    simp only [decodeVal]
    simp [(by decide : (159 : Nat) &&& 31 = 31), decodeArgument, hind, Except.map]
  unfold bundle_decode
  rw [hdec]
  have hprt := primary_roundtrip b.primary hd hs hr hnf hfo hta hsrc
  have hplrt := payload_roundtrip b.payload hplc
  have hexts := scanBlocks_exts b.extensions
    (fun e he => (hext e he).1.1.1.1.1) b.payload
  have hscan : scanBlocks (payloadToCborArray b.payload ::
      b.extensions.map extToCborArray) none = Except.ok b.payload := by
    have hstep : scanBlocks (payloadToCborArray b.payload ::
        b.extensions.map extToCborArray) none =
        match payloadFromCborArray (payloadToCborArray b.payload) with
        | .error e => Except.error e
        | .ok p => scanBlocks (b.extensions.map extToCborArray) (some p) := by
      simp [payloadToCborArray, scanBlocks, isPayloadType]
    rw [hstep, hplrt]
    exact hexts
  have hlen2 : ¬((primaryToCborArray b.primary :: payloadToCborArray b.payload ::
      b.extensions.map extToCborArray).length < 2) := by
    simp only [List.length_cons]; omega
  simp [List.getD, hlen2, hprt, hscan]

/-- C1 (amended): for every well-formed bundle, `Bundle.decode` of
`Bundle.encode` returns a bundle whose primary block and payload block —
and hence the payload bytes — equal the original's exactly, but whose
extension list is empty: the extension blocks of the original are parsed
past and dropped, not recorded in the decoded bundle. -/
theorem bundle_roundtrip_modulo_extensions (b : Bundle) (h : bundleWF b = true) :
    bundle_decode (bundle_encode b) = .ok ⟨b.primary, b.payload, []⟩ :=
  bundle_roundtrip_general b h

/-- Witness for the amended C1 at a concrete created bundle. -/
theorem bundle_roundtrip_modulo_extensions_witness :
    bundleWF crcB0 = true ∧
    bundle_decode (bundle_encode crcB0) = .ok ⟨crcB0.primary, crcB0.payload, []⟩ :=
  ⟨by decide, bundle_roundtrip_modulo_extensions crcB0 (by decide)⟩

/-- C1 counterexample: the bundle built by
`Bundle.create(ipn:2.1, ipn:1.1, b"hi", 3600000)` at clock 1000 ms
followed by `add_extension` of a bundle-age block decodes — after
encoding — to a bundle with NO extension blocks, although the original
carries one: `decode(B.encode())` does not equal `B` up to block order,
and the extension blocks are not recorded. -/
theorem bundle_decode_drops_extension_cx :
    (do
      let b ← bundle_create (EID.ipn 2 1) (EID.ipn 1 1) [104, 105] 3600000 none 0 1000
      add_extension b ⟨7, 0, 0, 1, .int 5⟩) = .ok cxBundle ∧
    bundle_decode (bundle_encode cxBundle) =
      .ok ⟨cxBundle.primary, cxBundle.payload, []⟩ ∧
    cxBundle.extensions.length = 1 :=
  ⟨rfl, bundle_roundtrip_general cxBundle (by decide), rfl⟩

/-- C2 evaluation (code bug): the bundle from
`Bundle.create(ipn:2.1, ipn:1.1, b"test", 3600000)` at clock 1000 ms
declares CRC type 1 (CRC16) in both its primary and its payload block,
yet `Bundle.encode` emits each block through `to_cbor_array`, which
omits the CRC field: the primary block's CBOR array has 8 elements
ending in the lifetime integer and the payload block's has 5 elements
ending in the data bytes — no CRC byte string is appended inside either
block's array, and `encode` is exactly the two arrays between the
indefinite-array open (0x9F) and the break (0xFF). -/
theorem bundle_encode_omits_crc :
    bundle_create (EID.ipn 2 1) (EID.ipn 1 1) [116, 101, 115, 116] 3600000
      none 0 1000 = .ok crcB0 ∧
    crcB0.primary.crcType = 1 ∧ crcB0.payload.crcType = 1 ∧
    primaryToCborArray crcB0.primary =
      .arr [.int 7, .int 0, .int 1,
        .arr [.int 2, .arr [.int 2, .int 1]],
        .arr [.int 2, .arr [.int 1, .int 1]],
        .arr [.int 2, .arr [.int 1, .int 1]],
        .arr [.int 1000, .int 0], .int 3600000] ∧
    payloadToCborArray crcB0.payload =
      .arr [.int 1, .int 1, .int 0, .int 1, .bytes [116, 101, 115, 116]] ∧
    bundle_encode crcB0 =
      159 :: (encodeVal (primaryToCborArray crcB0.primary) ++
        (encodeVal (payloadToCborArray crcB0.payload) ++ [255])) := by
  refine ⟨rfl, rfl, rfl, rfl, rfl, ?_⟩
  decide

/-- C10: `Bundle.create` with the null endpoint `dtn:none` as source
always raises: the creation timestamp comes from the local clock (a
non-zero DTN time), while the primary-block validation requires an
anonymous source to carry the unknown timestamp. -/
theorem create_anonymous_source_raises (dst : EID) (payload : List Nat)
    (lifetime : Int) (rpt : Option EID) (flags : Nat) (nowMs : Nat)
    (h : nowMs ≠ 0) :
    ∃ e, bundle_create dst EID.dtnNone payload lifetime rpt flags nowMs =
      .error e := by
  by_cases hfrag : flags &&& 1 ≠ 0
  · have hmod : flags % 2 = 1 := by
      rw [Nat.and_one_is_mod] at hfrag; omega
    exact ⟨.valueError "Fragment flag set but fragment fields missing", by
      unfold bundle_create mkPrimaryBlock
      simp [hfrag, hmod, Except.map]⟩
  · have hmod : flags % 2 = 0 := by
      rw [Nat.and_one_is_mod] at hfrag; omega
    exact ⟨.valueError "Anonymous bundles must have unknown creation time", by
      unfold bundle_create mkPrimaryBlock
      simp [hfrag, hmod, h, Except.map, EID.isNone]⟩

/-- Witness for C10 at a concrete destination, payload and clock. -/
theorem create_anonymous_source_raises_witness :
    (1000 : Nat) ≠ 0 ∧
    ∃ e, bundle_create (EID.ipn 2 1) EID.dtnNone [1] 3600000 none 0 1000 =
      .error e :=
  ⟨by decide, create_anonymous_source_raises (EID.ipn 2 1) [1] 3600000 none 0 1000
    (by decide)⟩

/-- C3 counterexample: a 10-byte encoded bundle sent against a peer
whose advertised segment MRU is 4 goes out as a single XFER_SEGMENT
(flags START|END = 3) whose 8-byte data-length field says 10 — the data
length exceeds the MRU, no segmentation happens, and `send_bundle`'s
type has no `TransferTooLarge` outcome (it never consults either peer
MRU). -/
theorem send_bundle_ignores_mru_cx :
    (send_bundle 0 (List.replicate 10 65)).2 =
      [1, 3, 0, 0, 0, 0, 0, 0, 0, 1, 0, 0, 0, 0, 0, 0, 0, 0, 0, 0, 0, 10] ++
        List.replicate 10 65 ∧
    10 > 4 := by
  constructor <;> decide

/-- C3 (amended): `send_bundle` transmits every bundle as exactly one
XFER_SEGMENT carrying both the START and END flags, the incremented
transfer id, a zero extension-items length, an 8-byte data length equal
to the full encoded size, and the whole bundle data; it performs no
segmentation against the peer's segment MRU and has no
transfer-too-large refusal path. -/
theorem send_bundle_single_segment (tid : Nat) (d : List Nat)
    (h : d.length < 2 ^ 64) :
    send_bundle tid d =
      (tid + 1, 1 :: 3 :: (toBytesBE 8 (tid + 1) ++ [0, 0, 0, 0] ++
        toBytesBE 8 d.length ++ d)) := by
  unfold send_bundle
  simp [toBytesBE]

/-- Witness for the amended C3 at a concrete transfer. -/
theorem send_bundle_single_segment_witness :
    ([7] : List Nat).length < 2 ^ 64 ∧
    send_bundle 0 [7] = (1, 1 :: 3 :: (toBytesBE 8 1 ++ [0, 0, 0, 0] ++
      toBytesBE 8 ([7] : List Nat).length ++ [7])) :=
  ⟨by decide, send_bundle_single_segment 0 [7] (by decide)⟩

/-- C4 counterexample: a segment without the START flag whose
transfer id (5) has no reassembly buffer is NOT answered with
SESS_TERM(UNKNOWN): without END the handler returns with the state
unchanged and no message sent (the session continues); with END the
`dict.pop` raises `KeyError`, which the receive loop swallows while
stopping, again without sending SESS_TERM. -/
theorem unknown_transfer_ignored_cx :
    handle_xfer_segment [] 0 5 [1, 2, 3] = .ok ([], [], []) ∧
    handle_xfer_segment [] 1 5 [1, 2, 3] = .error .keyError := by
  constructor <;> rfl

/-- C4 (amended): on a non-START segment whose transfer id is unknown,
`_handle_xfer_segment` silently discards the data — the pending map is
unchanged and nothing is sent — and, when the END flag is set, raises
`KeyError` instead; no SESS_TERM is produced on either path. -/
theorem unknown_transfer_behavior (pending : List (Nat × List Nat))
    (flags tid : Nat) (segData : List Nat)
    (hunk : lookupEntry tid pending = none) (hns : flags &&& 2 = 0) :
    handle_xfer_segment pending flags tid segData =
      if flags &&& 1 ≠ 0 then .error .keyError else .ok (pending, [], []) := by
  unfold handle_xfer_segment
  have h2 : ¬(flags &&& 2 ≠ 0) := by omega
  simp [h2, hunk]

/-- Witness for the amended C4 at a concrete segment. -/
theorem unknown_transfer_behavior_witness :
    lookupEntry 5 ([] : List (Nat × List Nat)) = none ∧ (0 : Nat) &&& 2 = 0 ∧
    handle_xfer_segment [] 0 5 [9] =
      (if (0 : Nat) &&& 1 ≠ 0 then .error .keyError else .ok ([], [], [])) :=
  ⟨rfl, rfl, unknown_transfer_behavior [] 0 5 [9] rfl rfl⟩
